import Mathlib

/-!
Verification of the query-understanding and retrieval-filtering engine of an
event-catalog RAG service. The definitions below are a shallow embedding of
the Python sources, chiefly `rag_chain.py` (temporal parser, filter predicate
builder, retrieval dispatcher, post-filter and ranker, live registration
status) and `vector_store.py` (`get_all_by_filter`). Machine integers are
embedded as `Int`/`Nat`; Python floor division and modulus by the positive
constant 100 are `Int.ediv`/`Int.emod`, which agree with Python for positive
divisors; Python truthiness of optional values is embedded explicitly.
-/

namespace RagChain

/-! ## Calendar dates -/

/-- A calendar date, year/month/day. -/
structure Date where
  y : Nat
  m : Nat
  d : Nat
deriving DecidableEq, Repr

/-- Gregorian leap-year test. -/
def isLeap (y : Nat) : Bool :=
  (y % 4 == 0 && y % 100 != 0) || (y % 400 == 0)

/-- Number of days in a month of a given year. -/
def daysInMonth (y m : Nat) : Nat :=
  if m = 2 then (if isLeap y then 29 else 28)
  else if m = 4 ∨ m = 6 ∨ m = 9 ∨ m = 11 then 30
  else 31

/-- The day after a given date. -/
def nextDay (dt : Date) : Date :=
  if dt.d < daysInMonth dt.y dt.m then ⟨dt.y, dt.m, dt.d + 1⟩
  else if dt.m < 12 then ⟨dt.y, dt.m + 1, 1⟩
  else ⟨dt.y + 1, 1, 1⟩

/-- Calendar addition of `n` days, as performed by Python `timedelta(days=n)`. -/
def addDays (dt : Date) : Nat → Date
  | 0 => dt
  | n + 1 => addDays (nextDay dt) n

/-- The 8-digit `YYYYMMDD` integer of a date, `int(strftime("%Y%m%d"))`. -/
def dateToInt (dt : Date) : Int :=
  ((dt.y * 10000 + dt.m * 100 + dt.d : Nat) : Int)

/-- Days of the months of `y` strictly before month `m` (months count from 1). -/
def daysBeforeMonth (y : Nat) : Nat → Nat
  | 0 => 0
  | p + 1 => daysBeforeMonth y p + (if p = 0 then 0 else daysInMonth y p)

/-- Leap years strictly before year `y` (for `y ≥ 1`). -/
def leapsBefore (y : Nat) : Nat :=
  (y - 1) / 4 - (y - 1) / 100 + (y - 1) / 400

/-- Rata-die style day number of a date (proleptic Gregorian calendar). -/
def rataDie (dt : Date) : Nat :=
  365 * (dt.y - 1) + leapsBefore dt.y + daysBeforeMonth dt.y dt.m + dt.d

/-- Split an 8-digit `YYYYMMDD` integer back into a date. -/
def intToDate (n : Int) : Date :=
  ⟨(Int.ediv n 10000).toNat, (Int.emod (Int.ediv n 100) 100).toNat, (Int.emod n 100).toNat⟩

/-- Modelled from the spec: the real calendar day difference `later − earlier`
between two `YYYYMMDD` integers, the subtraction the spec mandates for the
registration countdown (the source has no such helper). -/
def calendarDaysBetween (later earlier : Int) : Int :=
  ((rataDie (intToDate later) : Nat) : Int) - ((rataDie (intToDate earlier) : Nat) : Int)

/-! ## Python truthiness of optional metadata values -/

/-- Python truthiness of an optional integer (`None` and `0` are falsy). -/
def intTruthy : Option Int → Bool
  | none => false
  | some v => decide (v ≠ 0)

/-- Python truthiness of an optional string (`None` and `""` are falsy). -/
def strTruthy : Option String → Bool
  | none => false
  | some s => decide (s ≠ "")

/-- Python truthiness of an optional list (`None` and `[]` are falsy). -/
def listTruthy : Option (List Int) → Bool
  | none => false
  | some l => decide (l ≠ [])

/-! ## Live registration status (`calculate_registration_status`) -/

/-- The five syntactically distinct strings `calculate_registration_status`
can return: `""`, `"등록상태: 등록 시작 전"`, `"등록상태: 등록 가능 (마감 N일 전)"`,
`"등록상태: 등록 가능"`, `"등록상태: 등록 마감"`. -/
inductive RegStatusLine
  | empty
  | notYetOpen
  | openClosing (daysLeft : Int)
  | openPlain
  | closed
deriving DecidableEq, Repr

/-- Embedding of `calculate_registration_status` (`rag_chain.py` lines 475-494):
the guard is Python truthiness (`if not reg_start or not reg_end`), the
countdown is day-of-month subtraction `(reg_end % 100) - (today_int % 100)`,
and when `reg_end // 100 != today_int // 100` the countdown is replaced by the
string `"며칠"`, which fails the `isinstance(days_left, int)` check, so the
line degrades to the plain open status. -/
def calcRegistrationStatus (todayInt : Int) (regStart regEnd : Option Int) : RegStatusLine :=
  if !intTruthy regStart || !intTruthy regEnd then .empty
  else
    let rs := regStart.getD 0
    let rEnd := regEnd.getD 0
    if todayInt < rs then .notYetOpen
    else if todayInt ≤ rEnd then
      if Int.ediv rEnd 100 ≠ Int.ediv todayInt 100 then .openPlain
      else
        let daysLeft := Int.emod rEnd 100 - Int.emod todayInt 100
        if daysLeft ≤ 7 then .openClosing daysLeft else .openPlain
    else .closed

/-- Modelled from the spec: the live registration status the Context Assembler
section mandates, with the countdown computed by real calendar subtraction
(the source instead uses the imprecise arithmetic of `calcRegistrationStatus`). -/
def specRegistrationStatus (todayInt : Int) (regStart regEnd : Option Int) : RegStatusLine :=
  match regStart, regEnd with
  | some rs, some rEnd =>
    if todayInt < rs then .notYetOpen
    else if todayInt ≤ rEnd then
      let daysLeft := calendarDaysBetween rEnd todayInt
      if daysLeft ≤ 7 then .openClosing daysLeft else .openPlain
    else .closed
  | _, _ => .empty

/-- The four-way classification of the spec (not-yet-open / open / closed /
unknown); both open-status lines count as "open". -/
inductive RegClass
  | unknown
  | notYetOpen
  | openNow
  | closed
deriving DecidableEq, Repr

/-- Collapse a status line to its four-way class. -/
def classifyStatus : RegStatusLine → RegClass
  | .empty => .unknown
  | .notYetOpen => .notYetOpen
  | .openClosing _ => .openNow
  | .openPlain => .openNow
  | .closed => .closed

/-! ## Parsed intent and the ChromaDB predicate builder -/

/-- Registration-status intent returned by `parse_registration_filter`. -/
inductive RegIntent
  | available
  | closingSoon
  | upcoming
  | excludeClosed
deriving DecidableEq, Repr

/-- Duration intent returned by `parse_duration_filter`. -/
inductive DurIntent
  | multiDay
  | singleDay
deriving DecidableEq, Repr

/-- The per-query parser outputs consumed by `build_chroma_filters` and `chat`:
`parse_date_from_query` (year, month, monthRange), `parse_weekend_filter`,
`parse_category_from_query`, `parse_exclusion_filter`,
`parse_registration_filter`, `parse_duration_filter`, `is_time_based_query`
and `parse_location_from_query`. -/
structure Intent where
  year : Option Int
  month : Option Int
  monthRange : Option (List Int)
  isWeekend : Option Bool
  category : Option String
  exclusion : Option String
  regStatus : Option RegIntent
  duration : Option DurIntent
  timeBased : Bool
  location : Option String
deriving DecidableEq, Repr

/-- The metadata keys that appear in the ChromaDB `where` conditions built by
`build_chroma_filters` (string keys in the source, an enum here). -/
inductive FieldKey
  | year
  | month
  | startDateInt
  | isWeekend
  | category
  | regStartInt
  | regEndInt
  | durationDays
deriving DecidableEq, Repr

/-- A ChromaDB comparison operator used by the builder
(`$eq`, `$ne`, `$gt`, `$gte`, `$lte`, `$in`). -/
inductive CmpOp
  | eq
  | ne
  | gt
  | gte
  | lte
  | inSet
deriving DecidableEq, Repr

/-- A comparison value in a ChromaDB condition. -/
inductive CVal
  | int (i : Int)
  | bool (b : Bool)
  | str (s : String)
  | list (l : List Int)
deriving DecidableEq, Repr

/-- One atomic ChromaDB condition, e.g. `{"start_date_int": {"$gte": v}}`. -/
structure Condition where
  key : FieldKey
  op : CmpOp
  value : CVal
deriving DecidableEq, Repr

/-- `int(f"{year}{month:02d}28")` for the parser's (at most two-digit) months. -/
def day28Int (y m : Int) : Int := y * 10000 + m * 100 + 28

/-- Python `max` of a nonempty list (the builder only applies it to the
never-empty `month_range`). -/
def pyMax : List Int → Int
  | [] => 0
  | h :: t => t.foldl max h

/-- The `is_past_date` flag of `build_chroma_filters` (lines 321-332): the
user-specified period is clearly past, judged against day 28 of the month,
the last month of the range, or — with a year alone — the current year. -/
def isPastDate (i : Intent) (today : Date) : Bool :=
  if intTruthy i.year && intTruthy i.month then
    decide (day28Int (i.year.getD 0) (i.month.getD 0) < dateToInt today)
  else if intTruthy i.year && listTruthy i.monthRange then
    decide (day28Int (i.year.getD 0) (pyMax (i.monthRange.getD [])) < dateToInt today)
  else if intTruthy i.year then
    decide (i.year.getD 0 < (today.y : Int))
  else false

/-- The time-relative section of `build_chroma_filters` (lines 316-336). -/
def timeSection (i : Intent) (today : Date) : List Condition :=
  if i.timeBased then
    if isPastDate i today then []
    else [⟨.startDateInt, .gte, .int (dateToInt today)⟩]
  else []

/-- The year section (`if year:` — Python truthiness, line 339). -/
def yearSection (i : Intent) : List Condition :=
  if intTruthy i.year then [⟨.year, .eq, .int (i.year.getD 0)⟩] else []

/-- The month section (range with `$in`, else single month, lines 343-346). -/
def monthSection (i : Intent) : List Condition :=
  if listTruthy i.monthRange then [⟨.month, .inSet, .list (i.monthRange.getD [])⟩]
  else if intTruthy i.month then [⟨.month, .eq, .int (i.month.getD 0)⟩]
  else []

/-- The weekend section (`if is_weekend is not None:`, lines 349-351). -/
def weekendSection (i : Intent) : List Condition :=
  match i.isWeekend with
  | some b => [⟨.isWeekend, .eq, .bool b⟩]
  | none => []

/-- The category section (lines 354-356). -/
def categorySection (i : Intent) : List Condition :=
  if strTruthy i.category then [⟨.category, .eq, .str (i.category.getD "")⟩] else []

/-- The exclusion section (`$ne`, lines 359-361). -/
def exclusionSection (i : Intent) : List Condition :=
  if strTruthy i.exclusion then [⟨.category, .ne, .str (i.exclusion.getD "")⟩] else []

/-- The registration-status section (lines 363-380); `week_later` is computed
by Python `datetime.now() + timedelta(days=7)`, i.e. calendar addition. -/
def regSection (i : Intent) (today : Date) : List Condition :=
  match i.regStatus with
  | some .available =>
    [⟨.regStartInt, .lte, .int (dateToInt today)⟩, ⟨.regEndInt, .gte, .int (dateToInt today)⟩]
  | some .closingSoon =>
    [⟨.regEndInt, .gte, .int (dateToInt today)⟩,
     ⟨.regEndInt, .lte, .int (dateToInt (addDays today 7))⟩]
  | some .upcoming => [⟨.regStartInt, .gt, .int (dateToInt today)⟩]
  | some .excludeClosed => [⟨.regEndInt, .gte, .int (dateToInt today)⟩]
  | none => []

/-- The duration section (lines 383-387). -/
def durationSection (i : Intent) : List Condition :=
  match i.duration with
  | some .multiDay => [⟨.durationDays, .gt, .int 1⟩]
  | some .singleDay => [⟨.durationDays, .eq, .int 1⟩]
  | none => []

/-- The full `conditions` list assembled by `build_chroma_filters`
(lines 309-396), in source order, for a single per-query value of today. -/
def buildChromaConditions (i : Intent) (today : Date) : List Condition :=
  timeSection i today ++ yearSection i ++ monthSection i ++ weekendSection i ++
  categorySection i ++ exclusionSection i ++ regSection i today ++ durationSection i

/-- The returned `where` clause: `None` when no condition was produced
(lines 391-396); the single-condition and `$and` forms both denote the
conjunction of the list. -/
def buildChromaFilters (i : Intent) (today : Date) : Option (List Condition) :=
  if buildChromaConditions i today = [] then none else some (buildChromaConditions i today)

/-- `build_chroma_filters` with its clock reads made explicit: the source
calls `datetime.now()` afresh at line 318 (only when the query is time-based),
at line 364 (always, for the registration thresholds) and at line 372 (only
for `closing_soon`). `clock n` is the date returned by the `n`-th read, in
execution order. -/
def buildChromaConditionsClocked (i : Intent) (clock : Nat → Date) : List Condition :=
  let base : Nat := if i.timeBased then 1 else 0
  let timeConds :=
    if i.timeBased then
      if isPastDate i (clock 0) then []
      else [⟨.startDateInt, .gte, .int (dateToInt (clock 0))⟩]
    else []
  let regToday := clock base
  let weekLaterRead := clock (base + 1)
  let regConds : List Condition :=
    match i.regStatus with
    | some .available =>
      [⟨.regStartInt, .lte, .int (dateToInt regToday)⟩,
       ⟨.regEndInt, .gte, .int (dateToInt regToday)⟩]
    | some .closingSoon =>
      [⟨.regEndInt, .gte, .int (dateToInt regToday)⟩,
       ⟨.regEndInt, .lte, .int (dateToInt (addDays weekLaterRead 7))⟩]
    | some .upcoming => [⟨.regStartInt, .gt, .int (dateToInt regToday)⟩]
    | some .excludeClosed => [⟨.regEndInt, .gte, .int (dateToInt regToday)⟩]
    | none => []
  timeConds ++ yearSection i ++ monthSection i ++ weekendSection i ++
  categorySection i ++ exclusionSection i ++ regConds ++ durationSection i

/-! ## Records, predicate evaluation and the retrieval dispatcher -/

/-- An event record as seen by this engine: the optional metadata fields that
the builder's conditions and the post-filter read (`metadata.get`). -/
structure Node where
  year : Option Int
  month : Option Int
  startDateInt : Option Int
  isWeekend : Option Bool
  category : Option String
  regStartInt : Option Int
  regEndInt : Option Int
  durationDays : Option Int
  location : Option String
deriving DecidableEq, Repr

/-- Look a condition key up in a record's metadata (a missing key never
matches, per ChromaDB `where` semantics). -/
def metaGet (n : Node) : FieldKey → Option CVal
  | .year => n.year.map .int
  | .month => n.month.map .int
  | .startDateInt => n.startDateInt.map .int
  | .isWeekend => n.isWeekend.map .bool
  | .category => n.category.map .str
  | .regStartInt => n.regStartInt.map .int
  | .regEndInt => n.regEndInt.map .int
  | .durationDays => n.durationDays.map .int

/-- Evaluate one ChromaDB operator on a stored value and a target value. -/
def cmpVal (v : CVal) (op : CmpOp) (target : CVal) : Bool :=
  match op, v, target with
  | .eq, a, b => a == b
  | .ne, a, b => a != b
  | .gt, .int a, .int b => decide (b < a)
  | .gte, .int a, .int b => decide (b ≤ a)
  | .lte, .int a, .int b => decide (a ≤ b)
  | .inSet, .int a, .list l => l.contains a
  | _, _, _ => false

/-- Whether a record satisfies one condition. -/
def evalCond (n : Node) (c : Condition) : Bool :=
  match metaGet n c.key with
  | some v => cmpVal v c.op c.value
  | none => false

/-- Whether a record satisfies the conjunction of all conditions. -/
def evalConds (cs : List Condition) (n : Node) : Bool :=
  cs.all (evalCond n)

/-- `get_all_by_filter` (`vector_store.py` lines 72-103): return every record
of the collection matching the predicate — no similarity limit, no cap. -/
def getAllByFilter (cs : List Condition) (store : List Node) : List Node :=
  store.filter (evalConds cs)

/-- Whether the first character list is a prefix of the second. -/
def isPrefixCharList : List Char → List Char → Bool
  | [], _ => true
  | _ :: _, [] => false
  | a :: as, b :: bs => a == b && isPrefixCharList as bs

/-- Whether `needle` occurs as a contiguous substring of the second list
(Python `needle in hay` on strings). -/
def containsSub (needle : List Char) : List Char → Bool
  | [] => needle.isEmpty
  | c :: rest => isPrefixCharList needle (c :: rest) || containsSub needle rest

/-- `filter_nodes_by_location` (`rag_chain.py` lines 399-411): keep the
records whose `location` metadata contains the keyword as a substring
(Python `location in node_location`). -/
def filterNodesByLocation (nodes : List Node) (location : String) : List Node :=
  if location = "" then nodes
  else nodes.filter (fun n => containsSub location.toList (n.location.getD "").toList)

/-- The sort key of `sort_nodes_by_date`:
`metadata.get("start_date_int", 99999999)`. -/
def nodeDateKey (n : Node) : Int :=
  n.startDateInt.getD 99999999

/-- The ordering used by `sorted(nodes, key=get_date_int)` (ascending). -/
def nodeLe (a b : Node) : Prop :=
  nodeDateKey a ≤ nodeDateKey b

instance : DecidableRel nodeLe :=
  fun a b => inferInstanceAs (Decidable (nodeDateKey a ≤ nodeDateKey b))

instance : IsTotal Node nodeLe :=
  ⟨fun a b => le_total (nodeDateKey a) (nodeDateKey b)⟩

instance : IsTrans Node nodeLe :=
  ⟨fun _ _ _ hab hbc => le_trans hab hbc⟩

/-- `sort_nodes_by_date(nodes, ascending=True)` (lines 466-472). Python
`sorted` is a stable sort by the key; a stable sort by a total transitive
relation is extensionally unique, and this insertion sort is stable. -/
def sortNodesByDate (nodes : List Node) : List Node :=
  List.insertionSort nodeLe nodes

/-- The Post-Filter & Ranker steps of `chat` (lines 555-566): the in-process
location filter, then — when the query is time-relative — the date sort. -/
def postFilterRank (loc : Option String) (timeBased : Bool) (nodes : List Node) : List Node :=
  let nodes1 := if strTruthy loc then filterNodesByLocation nodes (loc.getD "") else nodes
  if timeBased then sortNodesByDate nodes1 else nodes1

/-- `config.RETRIEVAL_K` with its default value. -/
def RETRIEVAL_K : Nat := 20

/-- Which store `chat` queried and what came back. -/
inductive Retrieval
  | exact (fetched : List Node)
  | semantic (k : Nat)
deriving DecidableEq, Repr

/-- The retrieval dispatch of `chat` (lines 545-553 and 598-607): with a
`where` clause, fetch all matching records; with only a location keyword,
fetch all records unfiltered; otherwise use similarity search with the fixed
`top_k`. -/
def retrieveStep (i : Intent) (today : Date) (store : List Node) : Retrieval :=
  match buildChromaFilters i today with
  | some cs => .exact (getAllByFilter cs store)
  | none =>
    if strTruthy i.location then .exact store
    else .semantic RETRIEVAL_K

/-- The externally visible outcome of `chat`. -/
inductive ChatOutcome
  | noMatch
  | answer (shown : List Node) (total : Nat)
  | semanticSearch (k : Nat)
deriving DecidableEq, Repr

/-- The exact-match branch of `chat` after retrieval (lines 555-572):
location post-filter, the empty-result early return, the date sort for
time-relative queries, and truncation to `RETRIEVAL_K` records for the
context while the total count is reported separately. -/
def chatExactBody (i : Intent) (nodes : List Node) : ChatOutcome :=
  let nodes1 := if strTruthy i.location then filterNodesByLocation nodes (i.location.getD "") else nodes
  if nodes1 = [] then .noMatch
  else
    let nodes2 := if i.timeBased then sortNodesByDate nodes1 else nodes1
    .answer (nodes2.take RETRIEVAL_K) nodes2.length

/-- `chat` (`rag_chain.py` lines 527-612), as a function of the parsed
intent, the per-query date and the record store. -/
def chat (i : Intent) (today : Date) (store : List Node) : ChatOutcome :=
  match retrieveStep i today store with
  | .exact nodes => chatExactBody i nodes
  | .semantic k => .semanticSearch k

/-! ## The temporal parser (`parse_date_from_query`)

The three regular expressions of the source are modelled directly on
character lists: `(\d{4})년`, `(\d{1,2})월\s*[~\-부터]\s*(\d{1,2})월` and
`(\d{1,2})월`. Note that `[~\-부터]` is a character class: it matches ONE
character out of `~`, `-`, `부`, `터`. `\d` is modelled as an ASCII digit and
`\s` as ASCII whitespace, which covers the queries the claims range over.
Greedy matching with backtracking for `\d{1,2}` reduces to "two digits then
the literal, else one digit then the literal", because a digit can never
match the literal that follows; similarly `\s*` can take its maximal munch,
because no whitespace character is a digit or a class character. -/

/-- Numeric value of an ASCII digit character. -/
def digitVal (c : Char) : Nat := c.toNat - 48

/-- Match `(\d{1,2})월` at the head of the list; return the captured number
and the rest. Greedy: two digits are preferred when they are followed by the
month marker. -/
def monthTokenAt : List Char → Option (Nat × List Char)
  | c1 :: c2 :: c3 :: rest =>
    if c1.isDigit && c2.isDigit && c3 == '월' then
      some (10 * digitVal c1 + digitVal c2, rest)
    else if c1.isDigit && c2 == '월' then some (digitVal c1, c3 :: rest)
    else none
  | [c1, c2] => if c1.isDigit && c2 == '월' then some (digitVal c1, []) else none
  | _ => none

/-- Match `(\d{4})년` at the head of the list; return the captured year. -/
def yearTokenAt : List Char → Option Nat
  | c1 :: c2 :: c3 :: c4 :: c5 :: _ =>
    if c1.isDigit && c2.isDigit && c3.isDigit && c4.isDigit && c5 == '년' then
      some (1000 * digitVal c1 + 100 * digitVal c2 + 10 * digitVal c3 + digitVal c4)
    else none
  | _ => none

/-- Match `(\d{1,2})월\s*[~\-부터]\s*(\d{1,2})월` at the head of the list;
return the two captured numbers. -/
def rangeTokenAt (l : List Char) : Option (Nat × Nat) :=
  match monthTokenAt l with
  | none => none
  | some (m1, rest1) =>
    match rest1.dropWhile Char.isWhitespace with
    | [] => none
    | c :: rest3 =>
      if c == '~' || c == '-' || c == '부' || c == '터' then
        match monthTokenAt (rest3.dropWhile Char.isWhitespace) with
        | some (m2, _) => some (m1, m2)
        | none => none
      else none

/-- `re.search`: try the pattern at every position, leftmost match first. -/
def searchFirst {α : Type} (f : List Char → Option α) : List Char → Option α
  | [] => none
  | c :: rest =>
    match f (c :: rest) with
    | some r => some r
    | none => searchFirst f rest

/-- The half-year / quarter keyword chain of `parse_date_from_query`
(lines 123-135): each `re.search` over an alternation of literals is
containment of one of the literal substrings, and the `if`/`elif` chain
keeps the first group that matches. -/
def periodMonthRange (q : List Char) : Option (List Nat) :=
  if containsSub "상반기".toList q || containsSub "1반기".toList q ||
     containsSub "전반기".toList q then some [1, 2, 3, 4, 5, 6]
  else if containsSub "하반기".toList q || containsSub "2반기".toList q ||
     containsSub "후반기".toList q then some [7, 8, 9, 10, 11, 12]
  else if containsSub "1분기".toList q || containsSub "1사분기".toList q then some [1, 2, 3]
  else if containsSub "2분기".toList q || containsSub "2사분기".toList q then some [4, 5, 6]
  else if containsSub "3분기".toList q || containsSub "3사분기".toList q then some [7, 8, 9]
  else if containsSub "4분기".toList q || containsSub "4사분기".toList q then some [10, 11, 12]
  else none

/-- Python `list(range(a, b + 1))`. -/
def mkRange (a b : Nat) : List Nat :=
  (List.range (b + 1 - a)).map (fun k => a + k)

/-- `parse_date_from_query` (`rag_chain.py` lines 108-151): returns
`(year, month, month_range)`. The explicit-range match overwrites a keyword
range only when both bounds lie in 1..12 and are ordered; the single-month
fallback runs only when no range was retained. -/
def parseDateFromQuery (q : List Char) :
    Option Nat × Option Nat × Option (List Nat) :=
  let year := searchFirst yearTokenAt q
  let mr0 := periodMonthRange q
  let mr :=
    match searchFirst rangeTokenAt q with
    | some (m1, m2) =>
      if 1 ≤ m1 ∧ m1 ≤ 12 ∧ 1 ≤ m2 ∧ m2 ≤ 12 ∧ m1 ≤ m2 then some (mkRange m1 m2) else mr0
    | none => mr0
  let month :=
    match mr with
    | none => (searchFirst monthTokenAt q).map Prod.fst
    | some _ => none
  (year, month, mr)

/-! ## Concrete instances used by counterexamples and witnesses

`Intent` fields, in order: year, month, monthRange, isWeekend, category,
exclusion, regStatus, duration, timeBased, location. -/

/-- A time-relative query that mentions only the past year 2020. -/
def pastYearIntent : Intent :=
  ⟨some 2020, none, none, none, none, none, none, none, true, none⟩

/-- A time-relative query with no other parsed component. -/
def bareTimeIntent : Intent :=
  ⟨none, none, none, none, none, none, none, none, true, none⟩

/-- A query with no parsed component at all (semantic-search path). -/
def emptyIntent : Intent :=
  ⟨none, none, none, none, none, none, none, none, false, none⟩

/-- A query with only a category filter. -/
def categoryIntent : Intent :=
  ⟨none, none, none, none, some "세미나", none, none, none, false, none⟩

/-- A time-relative query with the registration-available intent. -/
def availTimeIntent : Intent :=
  ⟨none, none, none, none, none, none, some RegIntent.available, none, true, none⟩

/-- A fixed per-query date used by the concrete instances. -/
def someToday : Date := ⟨2025, 6, 1⟩

/-- A clock whose reads all return 2025-01-31. -/
def clockSteady : Nat → Date := fun _ => ⟨2025, 1, 31⟩

/-- A clock that rolls over midnight after its first read. -/
def clockMidnight : Nat → Date := fun n => if n = 0 then ⟨2025, 1, 31⟩ else ⟨2025, 2, 1⟩

/-- The time-relative lower-bound condition `start_date_int ≥ today`. -/
def startCond (today : Date) : Condition :=
  ⟨.startDateInt, .gte, .int (dateToInt today)⟩

/-- Is a condition about one of the registration-date keys? -/
def isRegKey (c : Condition) : Bool :=
  decide (c.key = FieldKey.regStartInt ∨ c.key = FieldKey.regEndInt)

/-! ## Theorems -/

/-- C1: registration window contains today (2025-01-31, window 2025-01-01 to
2025-02-03) and the real calendar difference `reg_end − today` is 3 ≤ 7 days,
so the claim mandates the annotation "closing in 3 days"; the code instead
hits its coarse month-difference fallback (`reg_end // 100 != today // 100`)
and returns the plain open line with no countdown. -/
theorem c1_countdown_code_bug :
    (20250101 : Int) ≤ 20250131 ∧ (20250131 : Int) ≤ 20250203
    ∧ calendarDaysBetween 20250203 20250131 = 3 ∧ (3 : Int) ≤ 7
    ∧ calcRegistrationStatus 20250131 (some 20250101) (some 20250203) = RegStatusLine.openPlain
    ∧ specRegistrationStatus 20250131 (some 20250101) (some 20250203)
        = RegStatusLine.openClosing 3 := by
  decide

/-- C4: the query "3월부터 5월까지" is exactly the claim's second phrase form
with the valid bounds M = 3 ≤ N = 5, yet the parser produces no month range
(it returns the single month 3): the pattern `[~\-부터]` is a one-character
class, so the `부터` spelling can never match, although the source's own
comment (line 137) lists this very query as a supported example. -/
theorem c4_buteo_form_code_bug :
    parseDateFromQuery "3월부터 5월까지".toList = (none, some 3, none)
    ∧ ((1 : Nat) ≤ 3 ∧ 3 ≤ 5 ∧ 5 ≤ 12) := by
  decide

/-- C2 counterexample: a time-relative query that specifies only the past
year 2020 — no month and no month range, so by the claim the lower bound
must be present — yet the builder suppresses it (the `elif year:` branch). -/
theorem c2_counterexample :
    pastYearIntent.timeBased = true ∧ pastYearIntent.month = none
    ∧ pastYearIntent.monthRange = none
    ∧ startCond someToday ∉ buildChromaConditions pastYearIntent someToday := by
  decide

/-- C7 counterexample: with `reg_start_int = 0` both registration dates are
present integers, yet the classification is "unknown" (`""`), because the
source's guard is Python truthiness (`if not reg_start or ...`), not
presence; so "unknown exactly when a registration date is absent" fails. -/
theorem c7_zero_counterexample :
    calcRegistrationStatus 20250601 (some 0) (some 20251231) = RegStatusLine.empty
    ∧ (some (0 : Int)) ≠ (none : Option Int)
    ∧ (some (20251231 : Int)) ≠ (none : Option Int) := by
  decide

/-- C8: two clock-read streams that agree on the first read (2025-01-31) but
differ afterwards give different backend predicates for the same query (a
time-relative query with the registration-available intent): the source
calls `datetime.now()` again at line 364, so the registration thresholds use
the second read while the lower bound uses the first. Under a constant clock
the clocked builder agrees with the single-date builder. -/
theorem c8_single_clock_read_code_bug :
    clockSteady 0 = clockMidnight 0
    ∧ buildChromaConditionsClocked availTimeIntent clockSteady
        ≠ buildChromaConditionsClocked availTimeIntent clockMidnight
    ∧ buildChromaConditionsClocked availTimeIntent clockSteady
        = buildChromaConditions availTimeIntent ⟨2025, 1, 31⟩ := by
  decide

/-- C10 counterexample: the query "1월 2월~1월" contains the rejected range
phrase "2월~1월" (M = 2 > N = 1) and no half-year or quarter keyword, but the
single-month fallback searches the whole query and returns the earlier month
token 1, not the phrase's first token M = 2. -/
theorem c10_counterexample :
    periodMonthRange "1월 2월~1월".toList = none
    ∧ searchFirst rangeTokenAt "1월 2월~1월".toList = some (2, 1)
    ∧ ¬ (2 : Nat) ≤ 1
    ∧ (parseDateFromQuery "1월 2월~1월".toList).2.1 = some 1
    ∧ (1 : Nat) ≠ 2 := by
  decide

/-- The location filter is idempotent. -/
theorem filterLoc_filter_self (s : String) (l : List Node) :
    filterNodesByLocation (filterNodesByLocation l s) s = filterNodesByLocation l s := by
  by_cases hs : s = ""
  · simp [filterNodesByLocation, hs]
  · simp [filterNodesByLocation, hs, List.filter_filter]

/-- The date sort produces a `nodeLe`-sorted list. -/
theorem sortNodes_sorted (l : List Node) : List.Sorted nodeLe (sortNodesByDate l) :=
  List.sorted_insertionSort nodeLe l

/-- Sorting an already-sorted list is the identity, so the sort is idempotent. -/
theorem sortNodes_idem (l : List Node) :
    sortNodesByDate (sortNodesByDate l) = sortNodesByDate l :=
  (sortNodes_sorted l).insertionSort_eq

/-- Filtering by location after sorting an already-filtered list is a no-op. -/
theorem filterLoc_sortNodes (s : String) (l : List Node) :
    filterNodesByLocation (sortNodesByDate (filterNodesByLocation l s)) s
      = sortNodesByDate (filterNodesByLocation l s) := by
  by_cases hs : s = ""
  · simp [filterNodesByLocation, hs]
  · simp only [filterNodesByLocation, if_neg hs]
    apply List.filter_eq_self.mpr
    intro a ha
    rw [sortNodesByDate, List.mem_insertionSort] at ha
    exact (List.mem_filter.mp ha).2

/-- C6: the Post-Filter & Ranker (location substring filter, then the
ascending stable sort by `start_date_int` with the 99999999 sentinel for
missing dates) is idempotent: re-running it on its own output returns an
identical list. -/
theorem c6_post_filter_rank_idempotent (loc : Option String) (tb : Bool) (l : List Node) :
    postFilterRank loc tb (postFilterRank loc tb l) = postFilterRank loc tb l := by
  by_cases hl : strTruthy loc
  · cases tb
    · simp [postFilterRank, hl, filterLoc_filter_self]
    · simp [postFilterRank, hl, filterLoc_sortNodes, sortNodes_idem]
  · cases tb
    · simp [postFilterRank, hl]
    · simp [postFilterRank, hl, sortNodes_idem]

/-- C5: the dispatcher queries the exact-match store if and only if the
predicate builder produced at least one condition or a location keyword was
parsed; the exact fetch is complete (every matching store record is
returned, no top-k cap) and is the whole unfiltered store when only a
location keyword exists; otherwise the semantic store is queried with the
fixed top-k limit. The hypothesis records that parsed location keywords are
never the empty string. -/
theorem c5_dispatch_contract (i : Intent) (today : Date) (store : List Node)
    (hloc : i.location ≠ some "") :
    ((∃ ns, retrieveStep i today store = .exact ns)
        ↔ (buildChromaConditions i today ≠ [] ∨ i.location.isSome))
    ∧ (∀ ns, retrieveStep i today store = .exact ns →
        (buildChromaConditions i today = [] → ns = store)
        ∧ ∀ n ∈ store, evalConds (buildChromaConditions i today) n = true → n ∈ ns)
    ∧ (retrieveStep i today store = .semantic RETRIEVAL_K
        ↔ (buildChromaConditions i today = [] ∧ i.location = none)) := by
  by_cases hc : buildChromaConditions i today = []
  · have hf : buildChromaFilters i today = none := by simp [buildChromaFilters, hc]
    cases hll : i.location with
    | none =>
      refine ⟨?_, ?_, ?_⟩ <;> simp [retrieveStep, hf, strTruthy, hc, hll]
    | some s =>
      have hs : s ≠ "" := fun h => hloc (by rw [hll, h])
      refine ⟨?_, ?_, ?_⟩ <;> simp [retrieveStep, hf, strTruthy, hs, hc, hll] <;>
        intros <;> tauto
  · have hf : buildChromaFilters i today = some (buildChromaConditions i today) := by
      simp [buildChromaFilters, hc]
    refine ⟨?_, ?_, ?_⟩ <;> simp [retrieveStep, hf, hc, getAllByFilter] <;>
      intros <;> tauto

/-- C5 witness: the intent with no parsed component dispatches to the
semantic store with the fixed top-k. -/
theorem c5_dispatch_contract_witness :
    ((none : Option String) ≠ some "")
    ∧ (retrieveStep emptyIntent someToday [] = .semantic RETRIEVAL_K
        ↔ (buildChromaConditions emptyIntent someToday = [] ∧ emptyIntent.location = none)) :=
  ⟨by decide, (c5_dispatch_contract emptyIntent someToday [] (by decide)).2.2⟩

/-- C9: on the exact-match path, when no record survives the backend
predicate and the location post-filter, `chat` returns the distinct
empty-result outcome (the "no matching documents" message) rather than
raising. -/
theorem c9_empty_result_no_match (i : Intent) (today : Date) (store ns : List Node)
    (h1 : retrieveStep i today store = .exact ns)
    (h2 : (if strTruthy i.location then filterNodesByLocation ns (i.location.getD "")
           else ns) = []) :
    chat i today store = .noMatch := by
  simp [chat, h1, chatExactBody, h2]

/-- C9 witness: a category-only query against an empty store takes the
exact-match path and reports the empty-result outcome. -/
theorem c9_empty_result_no_match_witness :
    retrieveStep categoryIntent someToday [] = .exact []
    ∧ chat categoryIntent someToday [] = .noMatch :=
  ⟨by decide, c9_empty_result_no_match categoryIntent someToday [] [] (by decide) (by decide)⟩

/-- Every condition of the time section is on `start_date_int`. -/
theorem timeSection_key {i : Intent} {today : Date} {c : Condition}
    (h : c ∈ timeSection i today) : c.key = FieldKey.startDateInt := by
  unfold timeSection at h
  split_ifs at h <;> simp_all

/-- Every condition of the year section is on `year`. -/
theorem yearSection_key {i : Intent} {c : Condition}
    (h : c ∈ yearSection i) : c.key = FieldKey.year := by
  unfold yearSection at h
  split_ifs at h <;> simp_all

/-- Every condition of the month section is on `month`. -/
theorem monthSection_key {i : Intent} {c : Condition}
    (h : c ∈ monthSection i) : c.key = FieldKey.month := by
  unfold monthSection at h
  split_ifs at h <;> simp_all

/-- Every condition of the weekend section is on `is_weekend`. -/
theorem weekendSection_key {i : Intent} {c : Condition}
    (h : c ∈ weekendSection i) : c.key = FieldKey.isWeekend := by
  unfold weekendSection at h
  cases hw : i.isWeekend <;> simp_all

/-- Every condition of the category section is on `category`. -/
theorem categorySection_key {i : Intent} {c : Condition}
    (h : c ∈ categorySection i) : c.key = FieldKey.category := by
  unfold categorySection at h
  split_ifs at h <;> simp_all

/-- Every condition of the exclusion section is on `category`. -/
theorem exclusionSection_key {i : Intent} {c : Condition}
    (h : c ∈ exclusionSection i) : c.key = FieldKey.category := by
  unfold exclusionSection at h
  split_ifs at h <;> simp_all

/-- Every condition of the registration section is on a registration key. -/
theorem regSection_key {i : Intent} {today : Date} {c : Condition}
    (h : c ∈ regSection i today) :
    c.key = FieldKey.regStartInt ∨ c.key = FieldKey.regEndInt := by
  unfold regSection at h
  cases hr : i.regStatus with
  | none => simp_all
  | some r => cases r <;> simp_all <;> rcases h with h | h <;> simp [h]

/-- Every condition of the duration section is on `duration_days`. -/
theorem durationSection_key {i : Intent} {c : Condition}
    (h : c ∈ durationSection i) : c.key = FieldKey.durationDays := by
  unfold durationSection at h
  cases hd : i.duration with
  | none => simp_all
  | some r => cases r <;> simp_all

/-- A list none of whose conditions is on a registration key contributes
nothing to the registration filter. -/
theorem filter_regKey_nil {cs : List Condition}
    (h : ∀ c ∈ cs, c.key ≠ FieldKey.regStartInt ∧ c.key ≠ FieldKey.regEndInt) :
    cs.filter isRegKey = [] := by
  rw [List.filter_eq_nil_iff]
  intro c hc
  rcases h c hc with ⟨h1, h2⟩
  simp [isRegKey, h1, h2]

/-- C3: for every parsed intent and per-query date, the conditions of the
backend predicate on the registration keys are exactly those the claim
lists, with `T` today's 8-digit integer and the closing-soon upper bound
computed by calendar addition of 7 days (`addDays`), not integer
arithmetic. -/
theorem c3_registration_conditions (i : Intent) (today : Date) :
    (buildChromaConditions i today).filter isRegKey
      = match i.regStatus with
        | some .available =>
          [⟨.regStartInt, .lte, .int (dateToInt today)⟩,
           ⟨.regEndInt, .gte, .int (dateToInt today)⟩]
        | some .closingSoon =>
          [⟨.regEndInt, .gte, .int (dateToInt today)⟩,
           ⟨.regEndInt, .lte, .int (dateToInt (addDays today 7))⟩]
        | some .upcoming => [⟨.regStartInt, .gt, .int (dateToInt today)⟩]
        | some .excludeClosed => [⟨.regEndInt, .gte, .int (dateToInt today)⟩]
        | none => [] := by
  have h1 : (timeSection i today).filter isRegKey = [] :=
    filter_regKey_nil (fun c hc => by simp [timeSection_key hc])
  have h2 : (yearSection i).filter isRegKey = [] :=
    filter_regKey_nil (fun c hc => by simp [yearSection_key hc])
  have h3 : (monthSection i).filter isRegKey = [] :=
    filter_regKey_nil (fun c hc => by simp [monthSection_key hc])
  have h4 : (weekendSection i).filter isRegKey = [] :=
    filter_regKey_nil (fun c hc => by simp [weekendSection_key hc])
  have h5 : (categorySection i).filter isRegKey = [] :=
    filter_regKey_nil (fun c hc => by simp [categorySection_key hc])
  have h6 : (exclusionSection i).filter isRegKey = [] :=
    filter_regKey_nil (fun c hc => by simp [exclusionSection_key hc])
  have h8 : (durationSection i).filter isRegKey = [] :=
    filter_regKey_nil (fun c hc => by simp [durationSection_key hc])
  unfold buildChromaConditions
  simp only [List.filter_append, h1, h2, h3, h4, h5, h6, h8,
    List.nil_append, List.append_nil]
  cases hr : i.regStatus with
  | none => simp [regSection, hr]
  | some r => cases r <;> simp [regSection, hr, isRegKey]

/-- The lower-bound condition belongs to the predicate exactly when the
query is time-relative and the `is_past_date` flag is off. -/
theorem startCond_mem_iff (i : Intent) (today : Date) :
    startCond today ∈ buildChromaConditions i today
      ↔ (i.timeBased = true ∧ isPastDate i today = false) := by
  unfold buildChromaConditions
  simp only [List.mem_append]
  constructor
  · rintro (((((((h | h) | h) | h) | h) | h) | h) | h)
    · unfold timeSection at h
      split_ifs at h with h1 h2
      · simp at h
      · exact ⟨h1, by simpa using h2⟩
      · simp at h
    · simpa [startCond] using yearSection_key h
    · simpa [startCond] using monthSection_key h
    · simpa [startCond] using weekendSection_key h
    · simpa [startCond] using categorySection_key h
    · simpa [startCond] using exclusionSection_key h
    · rcases regSection_key h with h1 | h1 <;> simp [startCond] at h1
    · simpa [startCond] using durationSection_key h
  · rintro ⟨h1, h2⟩
    have ht : startCond today ∈ timeSection i today := by
      unfold timeSection
      simp [h1, h2, startCond]
    tauto

/-- The `is_past_date` flag holds exactly in the three cases of the source's
`if`/`elif` chain, with Python truthiness on year, month and month range. -/
theorem isPastDate_true_iff (i : Intent) (today : Date) :
    isPastDate i today = true
      ↔ ((∃ y m, i.year = some y ∧ y ≠ 0 ∧ i.month = some m ∧ m ≠ 0
            ∧ day28Int y m < dateToInt today)
        ∨ (∃ y l, i.year = some y ∧ y ≠ 0 ∧ (i.month = none ∨ i.month = some 0)
            ∧ i.monthRange = some l ∧ l ≠ [] ∧ day28Int y (pyMax l) < dateToInt today)
        ∨ (∃ y, i.year = some y ∧ y ≠ 0 ∧ (i.month = none ∨ i.month = some 0)
            ∧ (i.monthRange = none ∨ i.monthRange = some [])
            ∧ y < (today.y : Int))) := by
  unfold isPastDate
  cases hy : i.year with
  | none => simp [intTruthy, hy]
  | some y =>
    by_cases hy0 : y = 0
    · subst hy0
      simp [intTruthy, hy]
    · cases hm : i.month with
      | some m =>
        by_cases hm0 : m = 0
        · subst hm0
          cases hmr : i.monthRange with
          | none => simp [intTruthy, listTruthy, hy, hm, hmr, hy0]
          | some l =>
            by_cases hl : l = []
            · subst hl
              simp [intTruthy, listTruthy, hy, hm, hmr, hy0]
            · simp [intTruthy, listTruthy, hy, hm, hmr, hy0, hl]
        · simp [intTruthy, hy, hm, hy0, hm0]
      | none =>
        cases hmr : i.monthRange with
        | none => simp [intTruthy, listTruthy, hy, hm, hmr, hy0]
        | some l =>
          by_cases hl : l = []
          · subst hl
            simp [intTruthy, listTruthy, hy, hm, hmr, hy0]
          · simp [intTruthy, listTruthy, hy, hm, hmr, hy0, hl]

/-- C2 (amended): for every time-relative query, the predicate contains
`start_date_int ≥ today` if and only if the parsed period is not clearly
past — where "clearly past" is: a (truthy) year with a (truthy) month whose
day-28 integer is before today; or such a year with no truthy month but a
nonempty month range, judged by the range's maximal month; or — the case
the original claim omits — such a year alone, strictly less than the
current year. -/
theorem c2_time_lower_bound_amended (i : Intent) (today : Date)
    (h : i.timeBased = true) :
    startCond today ∈ buildChromaConditions i today
      ↔ ¬ ((∃ y m, i.year = some y ∧ y ≠ 0 ∧ i.month = some m ∧ m ≠ 0
              ∧ day28Int y m < dateToInt today)
          ∨ (∃ y l, i.year = some y ∧ y ≠ 0 ∧ (i.month = none ∨ i.month = some 0)
              ∧ i.monthRange = some l ∧ l ≠ [] ∧ day28Int y (pyMax l) < dateToInt today)
          ∨ (∃ y, i.year = some y ∧ y ≠ 0 ∧ (i.month = none ∨ i.month = some 0)
              ∧ (i.monthRange = none ∨ i.monthRange = some [])
              ∧ y < (today.y : Int))) := by
  rw [startCond_mem_iff, ← isPastDate_true_iff]
  simp [h]

/-- C2 witness: a time-relative query with no year keeps the lower bound. -/
theorem c2_time_lower_bound_amended_witness :
    bareTimeIntent.timeBased = true
    ∧ (startCond someToday ∈ buildChromaConditions bareTimeIntent someToday
        ↔ ¬ ((∃ y m, bareTimeIntent.year = some y ∧ y ≠ 0 ∧ bareTimeIntent.month = some m
                ∧ m ≠ 0 ∧ day28Int y m < dateToInt someToday)
            ∨ (∃ y l, bareTimeIntent.year = some y ∧ y ≠ 0
                ∧ (bareTimeIntent.month = none ∨ bareTimeIntent.month = some 0)
                ∧ bareTimeIntent.monthRange = some l ∧ l ≠ []
                ∧ day28Int y (pyMax l) < dateToInt someToday)
            ∨ (∃ y, bareTimeIntent.year = some y ∧ y ≠ 0
                ∧ (bareTimeIntent.month = none ∨ bareTimeIntent.month = some 0)
                ∧ (bareTimeIntent.monthRange = none ∨ bareTimeIntent.monthRange = some [])
                ∧ y < (someToday.y : Int)))) :=
  ⟨by decide, c2_time_lower_bound_amended bareTimeIntent someToday (by decide)⟩

/-- C7 (amended): the classification is a total function into exactly the
four statuses, but "unknown" holds exactly when a registration date is
absent OR stored as the (falsy) integer 0; on truthy dates the other three
statuses partition the integer line as not-yet-open (`today < reg_start`),
open (`reg_start ≤ today ≤ reg_end`, covering `reg_start = reg_end = today`)
and closed (`reg_start ≤ today` and `reg_end < today`; the `reg_start ≤ today`
conjunct reflects the source's ordered `if`/`elif` chain, under which a
degenerate window with `reg_end < reg_start` reports not-yet-open for any
`today < reg_start`). -/
theorem c7_total_classification_amended (t : Int) (rs rE : Option Int) :
    (classifyStatus (calcRegistrationStatus t rs rE) = RegClass.unknown
      ↔ (rs = none ∨ rs = some 0 ∨ rE = none ∨ rE = some 0))
    ∧ (∀ a b : Int, rs = some a → rE = some b → a ≠ 0 → b ≠ 0 →
        ((classifyStatus (calcRegistrationStatus t rs rE) = RegClass.notYetOpen ↔ t < a)
         ∧ (classifyStatus (calcRegistrationStatus t rs rE) = RegClass.openNow
              ↔ (a ≤ t ∧ t ≤ b))
         ∧ (classifyStatus (calcRegistrationStatus t rs rE) = RegClass.closed
              ↔ (a ≤ t ∧ b < t)))) := by
  constructor
  · cases rs with
    | none => simp [calcRegistrationStatus, intTruthy, classifyStatus]
    | some a =>
      by_cases ha : a = 0
      · subst ha
        simp [calcRegistrationStatus, intTruthy, classifyStatus]
      · cases rE with
        | none => simp [calcRegistrationStatus, intTruthy, classifyStatus, ha]
        | some b =>
          by_cases hb : b = 0
          · subst hb
            simp [calcRegistrationStatus, intTruthy, classifyStatus, ha]
          · simp only [calcRegistrationStatus, intTruthy, ha, hb, decide_not]
            simp [ha, hb]
            split_ifs <;> simp [classifyStatus]
  · rintro a b rfl rfl ha hb
    simp only [calcRegistrationStatus, intTruthy, Option.getD_some]
    simp [ha, hb]
    split_ifs with h1 h2 h3 h4 <;> simp [classifyStatus] <;> omega

/-- C7 witness: a window containing today classifies as open. -/
theorem c7_total_classification_amended_witness :
    classifyStatus (calcRegistrationStatus 20250610 (some 20250601) (some 20250620))
        = RegClass.openNow
      ↔ ((20250601 : Int) ≤ 20250610 ∧ (20250610 : Int) ≤ 20250620) :=
  ((c7_total_classification_amended 20250610 (some 20250601) (some 20250620)).2
    20250601 20250620 rfl rfl (by decide) (by decide)).2.1

/-- If the range pattern matches at a position, the single-month pattern
matches there too (its first token is one). -/
theorem rangeTokenAt_month_isSome {l : List Char} {p : Nat × Nat}
    (h : rangeTokenAt l = some p) : (monthTokenAt l).isSome := by
  unfold rangeTokenAt at h
  cases hm : monthTokenAt l with
  | none => rw [hm] at h; simp at h
  | some x => simp

/-- If the range search succeeds anywhere in the query, so does the
single-month search. -/
theorem searchFirst_month_isSome :
    ∀ q : List Char, (searchFirst rangeTokenAt q).isSome →
      (searchFirst monthTokenAt q).isSome := by
  intro q
  induction q with
  | nil => simp [searchFirst]
  | cons c rest ih =>
    intro h
    rw [searchFirst] at h ⊢
    cases hr : rangeTokenAt (c :: rest) with
    | some p =>
      have hms := rangeTokenAt_month_isSome hr
      cases hm : monthTokenAt (c :: rest) with
      | none => rw [hm] at hms; simp at hms
      | some x => simp [hm]
    | none =>
      rw [hr] at h
      have hms := ih h
      cases hm : monthTokenAt (c :: rest) with
      | some x => simp [hm]
      | none => simpa [hm] using hms

/-- C10 (amended): when the query contains no half-year or quarter keyword
and its first explicit range match "M월~N월" fails validation, the parser
returns no month range — but the single-month fallback still succeeds, so
the query is constrained to a single month: the first month token appearing
anywhere in the query (which is the rejected phrase's own first token M
whenever no earlier month token precedes the phrase). -/
theorem c10_single_month_fallback_amended (q : List Char) (m1 m2 : Nat)
    (hp : periodMonthRange q = none)
    (hr : searchFirst rangeTokenAt q = some (m1, m2))
    (hinv : ¬ (1 ≤ m1 ∧ m1 ≤ 12 ∧ 1 ≤ m2 ∧ m2 ≤ 12 ∧ m1 ≤ m2)) :
    (parseDateFromQuery q).2.2 = none
    ∧ (parseDateFromQuery q).2.1 = (searchFirst monthTokenAt q).map Prod.fst
    ∧ ((parseDateFromQuery q).2.1).isSome := by
  have hms := searchFirst_month_isSome q (by simp [hr])
  unfold parseDateFromQuery
  simp only [hr, hp, if_neg hinv]
  refine ⟨trivial, trivial, ?_⟩
  simpa using hms

/-- C10 witness: the query "9월~5월" has a reversed range, produces no month
range, and is still constrained to the single month 9. -/
theorem c10_single_month_fallback_amended_witness :
    (parseDateFromQuery "9월~5월".toList).2.2 = none
    ∧ (parseDateFromQuery "9월~5월".toList).2.1
        = (searchFirst monthTokenAt "9월~5월".toList).map Prod.fst
    ∧ ((parseDateFromQuery "9월~5월".toList).2.1).isSome :=
  c10_single_month_fallback_amended "9월~5월".toList 9 5 (by decide) (by decide) (by decide)

end RagChain
